import Mathlib

/-!
Verification of the BaseloadRenewables2 core against its specification.

Part 1 embeds the dispatch simulation of `src/baseload/simulation.py`
(`_simulate_single_configuration`, lines 29-104) over the rationals: the
Python floats become exact `ℚ` arithmetic.  The code sets
`charge_eff = discharge_eff = rte ** 0.5`; since a square root is not
rational in general, the embedding takes the one-way efficiency
`charge_eff` itself as the parameter, and theorems that speak about a
concrete `round_trip_efficiency` value `rte` carry the hypothesis
`charge_eff * charge_eff = rte` (together with `0 ≤ charge_eff`), which
pins `charge_eff` to `rte ** 0.5` exactly.

Part 2 (further below) embeds the site selection of
`src/baseload/site_selection.py` over the reals.
-/

/-- One row of the hourly CSV written by `_simulate_single_configuration`
(lines 72-88 of `simulation.py`), restricted to the numeric energy fields;
`served_mwh` is the value `served = baseload_mwh - unmet` of line 68,
which feeds `served_total`.  `soc_mwh` is the state of charge after the
hour's update, exactly as the code writes `soc` after mutating it. -/
structure HourRecord where
  solar_mwh : ℚ
  load_mwh : ℚ
  soc_mwh : ℚ
  charge_mwh : ℚ
  discharge_mwh : ℚ
  unmet_mwh : ℚ
  overproduction_mwh : ℚ
  served_mwh : ℚ
deriving DecidableEq, Repr

/-- The body of the hourly loop of `_simulate_single_configuration`
(`simulation.py` lines 48-68).  `baseload_mwh`, `capacity_mwh`,
`charge_eff` (equal to `discharge_eff` in the code) and `pv_multiplier`
are the loop-invariant values computed on lines 38-42; `soc` is the
state of charge entering the hour and `pv_value` the hour's yield value. -/
def simulate_hour (baseload_mwh capacity_mwh charge_eff pv_multiplier soc pv_value : ℚ) :
    HourRecord :=
  let solar_mwh := pv_value * pv_multiplier / 1000
  let surplus := max 0 (solar_mwh - baseload_mwh)
  let deficit := max 0 (baseload_mwh - solar_mwh)
  if surplus > 0 then
    let potential_charge := surplus * charge_eff
    let charge_added := min (capacity_mwh - soc) potential_charge
    let energy_used_for_charge := if charge_eff > 0 then charge_added / charge_eff else 0
    let overproduction := max 0 (surplus - energy_used_for_charge)
    { solar_mwh := solar_mwh, load_mwh := baseload_mwh, soc_mwh := soc + charge_added,
      charge_mwh := charge_added, discharge_mwh := 0, unmet_mwh := 0,
      overproduction_mwh := overproduction, served_mwh := baseload_mwh }
  else if deficit > 0 then
    let possible_discharge := min soc (if charge_eff > 0 then deficit / charge_eff else 0)
    let discharge_to_load := possible_discharge * charge_eff
    let unmet := max 0 (deficit - discharge_to_load)
    { solar_mwh := solar_mwh, load_mwh := baseload_mwh, soc_mwh := soc - possible_discharge,
      charge_mwh := 0, discharge_mwh := discharge_to_load, unmet_mwh := unmet,
      overproduction_mwh := 0, served_mwh := baseload_mwh - unmet }
  else
    { solar_mwh := solar_mwh, load_mwh := baseload_mwh, soc_mwh := soc,
      charge_mwh := 0, discharge_mwh := 0, unmet_mwh := 0,
      overproduction_mwh := 0, served_mwh := baseload_mwh }

/-- The hourly loop of `_simulate_single_configuration` (lines 48-88):
the state of charge produced by each hour is threaded into the next. -/
def simulate_hours (baseload_mwh capacity_mwh charge_eff pv_multiplier : ℚ) :
    ℚ → List ℚ → List HourRecord
  | _, [] => []
  | soc, pv_value :: rest =>
    let r := simulate_hour baseload_mwh capacity_mwh charge_eff pv_multiplier soc pv_value
    r :: simulate_hours baseload_mwh capacity_mwh charge_eff pv_multiplier r.soc_mwh rest

/-- `_simulate_single_configuration` (`simulation.py` lines 29-104), up to
the CSV/summary formatting: the derived constants of lines 38-42 are
`baseload_mwh = baseload_gw * 1000`, `pv_multiplier = pv_gw * 1000000 / 1000`,
`capacity_mwh = battery_gwh * 1000`, and the initial state of charge is
`soc = 0.5 * capacity_mwh`.  The loop iterates over
`zip(pv_profile.datetimes, pv_profile.pv_kwh_per_kw)`; timestamps are
modelled as opaque naturals, and as in Python's `zip` the iteration
silently stops at the shorter of the two sequences. -/
def simulate_single_configuration (pv_gw battery_gwh baseload_gw charge_eff : ℚ)
    (datetimes : List ℕ) (pv_values : List ℚ) : List HourRecord :=
  let baseload_mwh := baseload_gw * 1000
  let pv_multiplier := pv_gw * 1000000 / 1000
  let capacity_mwh := battery_gwh * 1000
  simulate_hours baseload_mwh capacity_mwh charge_eff pv_multiplier
    (0.5 * capacity_mwh) ((datetimes.zip pv_values).map Prod.snd)

/-- Helper: the hour's solar generation only depends on the yield value
and `pv_multiplier` (`simulation.py` line 49). -/
theorem simulate_hour_solar (b cap eff m soc v : ℚ) :
    (simulate_hour b cap eff m soc v).solar_mwh = v * m / 1000 := by
  simp only [simulate_hour]
  split_ifs <;> rfl

/-- Helper: the hour's load column is always `baseload_mwh`
(`simulation.py` line 81). -/
theorem simulate_hour_load (b cap eff m soc v : ℚ) :
    (simulate_hour b cap eff m soc v).load_mwh = b := by
  simp only [simulate_hour]
  split_ifs <;> rfl

/-- Helper: `served = baseload_mwh - unmet` (line 68) makes
`served + unmet = load` hold in every branch of the hourly dispatch. -/
theorem simulate_hour_served_add_unmet (b cap eff m soc v : ℚ) :
    (simulate_hour b cap eff m soc v).served_mwh + (simulate_hour b cap eff m soc v).unmet_mwh
      = (simulate_hour b cap eff m soc v).load_mwh := by
  simp only [simulate_hour]
  split_ifs <;> dsimp only <;> ring

/-- Helper: one dispatch hour preserves the state-of-charge bounds and
produces nonnegative, mutually exclusive flows, given a nonnegative
one-way efficiency. -/
theorem simulate_hour_facts (b cap eff m soc v : ℚ) (heff : 0 ≤ eff)
    (h0 : 0 ≤ soc) (h1 : soc ≤ cap) :
    0 ≤ (simulate_hour b cap eff m soc v).soc_mwh ∧
    (simulate_hour b cap eff m soc v).soc_mwh ≤ cap ∧
    0 ≤ (simulate_hour b cap eff m soc v).charge_mwh ∧
    0 ≤ (simulate_hour b cap eff m soc v).discharge_mwh ∧
    0 ≤ (simulate_hour b cap eff m soc v).unmet_mwh ∧
    0 ≤ (simulate_hour b cap eff m soc v).overproduction_mwh ∧
    ((simulate_hour b cap eff m soc v).charge_mwh = 0 ∨
      (simulate_hour b cap eff m soc v).discharge_mwh = 0) ∧
    ((simulate_hour b cap eff m soc v).unmet_mwh = 0 ∨
      (simulate_hour b cap eff m soc v).overproduction_mwh = 0) := by
  simp only [simulate_hour]
  split_ifs with hs h2 hd h3 <;> dsimp only
  · have hc0 : 0 ≤ (cap - soc) ⊓ ((0 ⊔ (v * m / 1000 - b)) * eff) :=
      le_min (by linarith) (mul_nonneg (le_max_left 0 _) heff)
    have hc1 : (cap - soc) ⊓ ((0 ⊔ (v * m / 1000 - b)) * eff) ≤ cap - soc := min_le_left _ _
    exact ⟨by linarith, by linarith, hc0, le_refl 0, le_refl 0, le_max_left 0 _,
      Or.inr rfl, Or.inl rfl⟩
  · have hc0 : 0 ≤ (cap - soc) ⊓ ((0 ⊔ (v * m / 1000 - b)) * eff) :=
      le_min (by linarith) (mul_nonneg (le_max_left 0 _) heff)
    have hc1 : (cap - soc) ⊓ ((0 ⊔ (v * m / 1000 - b)) * eff) ≤ cap - soc := min_le_left _ _
    exact ⟨by linarith, by linarith, hc0, le_refl 0, le_refl 0, le_max_left 0 _,
      Or.inr rfl, Or.inl rfl⟩
  · have hX : 0 ≤ (0 ⊔ (b - v * m / 1000)) / eff := div_nonneg (le_max_left 0 _) h3.le
    have hm0 : 0 ≤ soc ⊓ ((0 ⊔ (b - v * m / 1000)) / eff) := le_min h0 hX
    have hm1 : soc ⊓ ((0 ⊔ (b - v * m / 1000)) / eff) ≤ soc := min_le_left _ _
    exact ⟨by linarith, by linarith, le_refl 0, mul_nonneg hm0 h3.le, le_max_left 0 _,
      le_refl 0, Or.inl rfl, Or.inr rfl⟩
  · have hm0 : 0 ≤ soc ⊓ (0 : ℚ) := le_min h0 (le_refl 0)
    have hm1 : soc ⊓ (0 : ℚ) ≤ soc := min_le_left _ _
    exact ⟨by linarith, by linarith, le_refl 0, mul_nonneg hm0 heff, le_max_left 0 _,
      le_refl 0, Or.inl rfl, Or.inr rfl⟩
  · exact ⟨h0, h1, le_refl 0, le_refl 0, le_refl 0, le_refl 0, Or.inl rfl, Or.inr rfl⟩

/-- Helper: along a whole run, every hourly record keeps the state of
charge within `[0, capacity_mwh]` and has nonnegative, mutually
exclusive flows, provided the starting state of charge is in bounds. -/
theorem simulate_hours_invariant (b cap eff m : ℚ) (heff : 0 ≤ eff) :
    ∀ (vs : List ℚ) (soc : ℚ), 0 ≤ soc → soc ≤ cap →
      ∀ r ∈ simulate_hours b cap eff m soc vs,
        0 ≤ r.soc_mwh ∧ r.soc_mwh ≤ cap ∧ 0 ≤ r.charge_mwh ∧ 0 ≤ r.discharge_mwh ∧
        0 ≤ r.unmet_mwh ∧ 0 ≤ r.overproduction_mwh ∧
        (r.charge_mwh = 0 ∨ r.discharge_mwh = 0) ∧
        (r.unmet_mwh = 0 ∨ r.overproduction_mwh = 0)
  | [], _, _, _ => by simp [simulate_hours]
  | v :: vs, soc, h0, h1 => by
    intro r hr
    have hfacts := simulate_hour_facts b cap eff m soc v heff h0 h1
    simp only [simulate_hours, List.mem_cons] at hr
    rcases hr with rfl | hr
    · exact ⟨hfacts.1, hfacts.2.1, hfacts.2.2.1, hfacts.2.2.2.1, hfacts.2.2.2.2.1,
        hfacts.2.2.2.2.2.1, hfacts.2.2.2.2.2.2.1, hfacts.2.2.2.2.2.2.2⟩
    · exact simulate_hours_invariant b cap eff m heff vs _ hfacts.1 hfacts.2.1 r hr

/-- Helper: with one-way efficiency `0` a dispatch hour moves no energy
through the battery: the state of charge is untouched, the whole deficit
is unmet and the whole surplus is curtailed (`simulation.py` lines 57-67,
the `else 0.0` guards on lines 60 and 64). -/
theorem simulate_hour_eff_zero (b cap m soc v : ℚ) (h0 : 0 ≤ soc) (h1 : soc ≤ cap) :
    (simulate_hour b cap 0 m soc v).charge_mwh = 0 ∧
    (simulate_hour b cap 0 m soc v).discharge_mwh = 0 ∧
    (simulate_hour b cap 0 m soc v).unmet_mwh
      = max 0 ((simulate_hour b cap 0 m soc v).load_mwh
          - (simulate_hour b cap 0 m soc v).solar_mwh) ∧
    (simulate_hour b cap 0 m soc v).overproduction_mwh
      = max 0 ((simulate_hour b cap 0 m soc v).solar_mwh
          - (simulate_hour b cap 0 m soc v).load_mwh) ∧
    (simulate_hour b cap 0 m soc v).soc_mwh = soc := by
  simp only [simulate_hour]
  split_ifs with hs h2 hd h3 <;> dsimp only
  · exact absurd h2 (lt_irrefl 0)
  · have hsb : 0 < v * m / 1000 - b := by
      rcases lt_sup_iff.mp hs with h | h
      · exact absurd h (lt_irrefl 0)
      · exact h
    have hch : (cap - soc) ⊓ ((0 ⊔ (v * m / 1000 - b)) * 0) = 0 := by
      rw [mul_zero]
      exact inf_eq_right.mpr (by linarith)
    refine ⟨hch, rfl, ?_, ?_, ?_⟩
    · rw [sup_eq_left.mpr (by linarith : b - v * m / 1000 ≤ 0)]
    · rw [sub_zero, sup_eq_right.mpr le_sup_left]
    · rw [hch, add_zero]
  · exact absurd h3 (lt_irrefl 0)
  · have hsb : 0 < b - v * m / 1000 := by
      rcases lt_sup_iff.mp hd with h | h
      · exact absurd h (lt_irrefl 0)
      · exact h
    have hps : soc ⊓ (0 : ℚ) = 0 := inf_eq_right.mpr h0
    refine ⟨rfl, by rw [hps, zero_mul], ?_, ?_, ?_⟩
    · rw [hps, zero_mul, sub_zero, sup_eq_right.mpr le_sup_left]
    · rw [sup_eq_left.mpr (by linarith : v * m / 1000 - b ≤ 0)]
    · rw [hps, sub_zero]
  · have hs' : v * m / 1000 - b ≤ 0 := by
      by_contra h
      exact hs (lt_sup_iff.mpr (Or.inr (by linarith)))
    have hd' : b - v * m / 1000 ≤ 0 := by
      by_contra h
      exact hd (lt_sup_iff.mpr (Or.inr (by linarith)))
    exact ⟨rfl, rfl, by rw [sup_eq_left.mpr hd'], by rw [sup_eq_left.mpr hs'], rfl⟩

/-- Helper: with zero battery capacity and zero stored energy a dispatch
hour leaves the battery untouched: the whole surplus is curtailed and the
whole deficit is unmet, for any nonnegative one-way efficiency. -/
theorem simulate_hour_cap_zero (b eff m v : ℚ) (heff : 0 ≤ eff) :
    (simulate_hour b 0 eff m 0 v).charge_mwh = 0 ∧
    (simulate_hour b 0 eff m 0 v).discharge_mwh = 0 ∧
    (simulate_hour b 0 eff m 0 v).unmet_mwh
      = max 0 ((simulate_hour b 0 eff m 0 v).load_mwh
          - (simulate_hour b 0 eff m 0 v).solar_mwh) ∧
    (simulate_hour b 0 eff m 0 v).overproduction_mwh
      = max 0 ((simulate_hour b 0 eff m 0 v).solar_mwh
          - (simulate_hour b 0 eff m 0 v).load_mwh) ∧
    (simulate_hour b 0 eff m 0 v).soc_mwh = 0 := by
  simp only [simulate_hour]
  split_ifs with hs h2 hd h3 <;> dsimp only
  · have hsb : 0 < v * m / 1000 - b := by
      rcases lt_sup_iff.mp hs with h | h
      · exact absurd h (lt_irrefl 0)
      · exact h
    have hch : ((0 : ℚ) - 0) ⊓ ((0 ⊔ (v * m / 1000 - b)) * eff) = 0 := by
      rw [sub_zero]
      exact inf_eq_left.mpr (mul_nonneg le_sup_left heff)
    refine ⟨hch, rfl, ?_, ?_, ?_⟩
    · rw [sup_eq_left.mpr (by linarith : b - v * m / 1000 ≤ 0)]
    · rw [hch, zero_div, sub_zero, sup_eq_right.mpr le_sup_left]
    · rw [hch, add_zero]
  · have hsb : 0 < v * m / 1000 - b := by
      rcases lt_sup_iff.mp hs with h | h
      · exact absurd h (lt_irrefl 0)
      · exact h
    have hch : ((0 : ℚ) - 0) ⊓ ((0 ⊔ (v * m / 1000 - b)) * eff) = 0 := by
      rw [sub_zero]
      exact inf_eq_left.mpr (mul_nonneg le_sup_left heff)
    refine ⟨hch, rfl, ?_, ?_, ?_⟩
    · rw [sup_eq_left.mpr (by linarith : b - v * m / 1000 ≤ 0)]
    · rw [sub_zero, sup_eq_right.mpr le_sup_left]
    · rw [hch, add_zero]
  · have hsb : 0 < b - v * m / 1000 := by
      rcases lt_sup_iff.mp hd with h | h
      · exact absurd h (lt_irrefl 0)
      · exact h
    have hps : (0 : ℚ) ⊓ ((0 ⊔ (b - v * m / 1000)) / eff) = 0 :=
      inf_eq_left.mpr (div_nonneg le_sup_left h3.le)
    refine ⟨rfl, by rw [hps, zero_mul], ?_, ?_, ?_⟩
    · rw [hps, zero_mul, sub_zero, sup_eq_right.mpr le_sup_left]
    · rw [sup_eq_left.mpr (by linarith : v * m / 1000 - b ≤ 0)]
    · rw [hps, sub_zero]
  · have hsb : 0 < b - v * m / 1000 := by
      rcases lt_sup_iff.mp hd with h | h
      · exact absurd h (lt_irrefl 0)
      · exact h
    have hps : (0 : ℚ) ⊓ (0 : ℚ) = 0 := inf_eq_left.mpr (le_refl 0)
    refine ⟨rfl, by rw [hps, zero_mul], ?_, ?_, ?_⟩
    · rw [hps, zero_mul, sub_zero, sup_eq_right.mpr le_sup_left]
    · rw [sup_eq_left.mpr (by linarith : v * m / 1000 - b ≤ 0)]
    · rw [hps, sub_zero]
  · have hs' : v * m / 1000 - b ≤ 0 := by
      by_contra h
      exact hs (lt_sup_iff.mpr (Or.inr (by linarith)))
    have hd' : b - v * m / 1000 ≤ 0 := by
      by_contra h
      exact hd (lt_sup_iff.mpr (Or.inr (by linarith)))
    exact ⟨rfl, rfl, by rw [sup_eq_left.mpr hd'], by rw [sup_eq_left.mpr hs'], rfl⟩

/-- Helper: run-level version of `simulate_hour_eff_zero`: with one-way
efficiency `0`, every hour of the run moves no energy through the battery
and reports the full deficit as unmet and the full surplus as curtailed. -/
theorem simulate_hours_eff_zero (b cap m : ℚ) :
    ∀ (vs : List ℚ) (soc : ℚ), 0 ≤ soc → soc ≤ cap →
      ∀ r ∈ simulate_hours b cap 0 m soc vs,
        r.charge_mwh = 0 ∧ r.discharge_mwh = 0 ∧
        r.unmet_mwh = max 0 (r.load_mwh - r.solar_mwh) ∧
        r.overproduction_mwh = max 0 (r.solar_mwh - r.load_mwh)
  | [], _, _, _ => by simp [simulate_hours]
  | v :: vs, soc, h0, h1 => by
    intro r hr
    have hfacts := simulate_hour_eff_zero b cap m soc v h0 h1
    simp only [simulate_hours, List.mem_cons] at hr
    rcases hr with rfl | hr
    · exact ⟨hfacts.1, hfacts.2.1, hfacts.2.2.1, hfacts.2.2.2.1⟩
    · rw [hfacts.2.2.2.2] at hr
      exact simulate_hours_eff_zero b cap m vs soc h0 h1 r hr

/-- Helper: run-level version of `simulate_hour_cap_zero`: with zero
battery capacity (hence zero initial state of charge) every hour of the
run reports the full deficit as unmet and the full surplus as curtailed. -/
theorem simulate_hours_cap_zero (b eff m : ℚ) (heff : 0 ≤ eff) :
    ∀ (vs : List ℚ),
      ∀ r ∈ simulate_hours b 0 eff m 0 vs,
        r.charge_mwh = 0 ∧ r.discharge_mwh = 0 ∧
        r.unmet_mwh = max 0 (r.load_mwh - r.solar_mwh) ∧
        r.overproduction_mwh = max 0 (r.solar_mwh - r.load_mwh)
  | [] => by simp [simulate_hours]
  | v :: vs => by
    intro r hr
    have hfacts := simulate_hour_cap_zero b eff m v heff
    simp only [simulate_hours, List.mem_cons] at hr
    rcases hr with rfl | hr
    · exact ⟨hfacts.1, hfacts.2.1, hfacts.2.2.1, hfacts.2.2.2.1⟩
    · rw [hfacts.2.2.2.2] at hr
      exact simulate_hours_cap_zero b eff m heff vs r hr

/-- Helper: `served + unmet = load` holds for every record of a run. -/
theorem simulate_hours_served_add_unmet (b cap eff m : ℚ) :
    ∀ (vs : List ℚ) (soc : ℚ), ∀ r ∈ simulate_hours b cap eff m soc vs,
      r.served_mwh + r.unmet_mwh = r.load_mwh
  | [], _ => by simp [simulate_hours]
  | v :: vs, soc => by
    intro r hr
    simp only [simulate_hours, List.mem_cons] at hr
    rcases hr with rfl | hr
    · exact simulate_hour_served_add_unmet b cap eff m soc v
    · exact simulate_hours_served_add_unmet b cap eff m vs _ r hr

/-- Helper: the solar column of a run is the pointwise image of the
yield values under `v * pv_multiplier / 1000` (`simulation.py` line 49). -/
theorem simulate_hours_map_solar (b cap eff m : ℚ) :
    ∀ (vs : List ℚ) (soc : ℚ),
      (simulate_hours b cap eff m soc vs).map HourRecord.solar_mwh
        = vs.map (fun v => v * m / 1000)
  | [], _ => by simp [simulate_hours]
  | v :: vs, soc => by
    simp only [simulate_hours, List.map_cons]
    exact congrArg₂ List.cons (simulate_hour_solar b cap eff m soc v)
      (simulate_hours_map_solar b cap eff m vs _)

/-- Helper: a run produces exactly one record per yield value. -/
theorem simulate_hours_length (b cap eff m : ℚ) :
    ∀ (vs : List ℚ) (soc : ℚ), (simulate_hours b cap eff m soc vs).length = vs.length
  | [], _ => by simp [simulate_hours]
  | v :: vs, soc => by
    simp only [simulate_hours, List.length_cons]
    exact congrArg Nat.succ (simulate_hours_length b cap eff m vs _)

/-- Concrete record used as evaluation witness: the single hour of the
spec's test scenario (PV 1 GW, load 1 GW, yield 1/2, battery 1 GWh,
one-way efficiency 9/10, starting SOC 500 MWh) as the code computes it. -/
def scenario_record : HourRecord :=
  { solar_mwh := 1/2, load_mwh := 1000, soc_mwh := 0, charge_mwh := 0,
    discharge_mwh := 450, unmet_mwh := 1099/2, overproduction_mwh := 0,
    served_mwh := 901/2 }

/-- Concrete record used as evaluation witness: a surplus hour (yield
2000, PV 1 GW, load 1 GW) with one-way efficiency 0 and battery 1 GWh
at its initial SOC of 500 MWh. -/
def eff_zero_record : HourRecord :=
  { solar_mwh := 2000, load_mwh := 1000, soc_mwh := 500, charge_mwh := 0,
    discharge_mwh := 0, unmet_mwh := 0, overproduction_mwh := 1000,
    served_mwh := 1000 }

/-- Concrete record used as evaluation witness: a surplus hour (yield
2000, PV 1 GW, load 1 GW) with zero battery capacity. -/
def cap_zero_record : HourRecord :=
  { solar_mwh := 2000, load_mwh := 1000, soc_mwh := 0, charge_mwh := 0,
    discharge_mwh := 0, unmet_mwh := 0, overproduction_mwh := 1000,
    served_mwh := 1000 }

/-- C1, amended: for every simulated hour the dispatch simulator converts
the hour's PV yield value `v` into `solar_mwh = v * pv_multiplier / 1000`
with `pv_multiplier = pv_capacity_gw * 1e6 / 1000` (`simulation.py` lines
39 and 49), i.e. `solar_mwh = v * pv_capacity_gw` — one factor of 1000
smaller than the spec's formula `v * pv_capacity_gw * 1e6 / 1000`. -/
theorem claim_C1_solar_formula (pv_gw battery_gwh baseload_gw charge_eff : ℚ)
    (datetimes : List ℕ) (pv_values : List ℚ) :
    (simulate_single_configuration pv_gw battery_gwh baseload_gw charge_eff
        datetimes pv_values).map HourRecord.solar_mwh
      = ((datetimes.zip pv_values).map Prod.snd).map (fun v => v * pv_gw) := by
  have hfun : (fun v : ℚ => v * (pv_gw * 1000000 / 1000) / 1000) = fun v : ℚ => v * pv_gw := by
    funext v
    ring
  simp only [simulate_single_configuration]
  rw [simulate_hours_map_solar, hfun]

/-- C1, counterexample to the claim as stated: the hour with yield value
`1/2` and `pv_capacity_gw = 1` yields `solar_mwh = 1/2`, while the claimed
formula `v * pv_capacity_gw * 1e6 / 1000` gives `500`. -/
theorem claim_C1_counterexample :
    (simulate_single_configuration 1 1 1 (9/10) [0] [1/2]).map HourRecord.solar_mwh = [1/2]
      ∧ ¬ ((1 : ℚ)/2 = 1/2 * 1 * 1000000 / 1000) := by
  constructor
  · norm_num [simulate_single_configuration, simulate_hours, simulate_hour, max_def, min_def]
  · norm_num

/-- C2, amended: with PV capacity 1 GW, baseload 1 GW, a single hour of
yield value `1/2`, battery capacity 1 GWh, round-trip efficiency `0.81`
(so the one-way efficiency `charge_eff = rte ** 0.5` equals `9/10`) and
starting state of charge 500 MWh, the code produces `solar_mwh = 1/2`
(not 500, because of the extra division by 1000 on line 49), hence
`deficit = 999.5`, `draw = min(500, 999.5/0.9) = 500`,
`discharge_delivered = 450`, `unmet = 549.5`, `soc_after = 0`,
`load_mwh = 1000`. -/
theorem claim_C2_scenario (charge_eff : ℚ) (h0 : 0 ≤ charge_eff)
    (h1 : charge_eff * charge_eff = 81/100) :
    simulate_single_configuration 1 1 1 charge_eff [0] [1/2] =
      [{ solar_mwh := 1/2, load_mwh := 1000, soc_mwh := 0, charge_mwh := 0,
         discharge_mwh := 450, unmet_mwh := 1099/2, overproduction_mwh := 0,
         served_mwh := 901/2 }] := by
  have h2 : (charge_eff - 9/10) * (charge_eff + 9/10) = 0 := by linear_combination h1
  rcases mul_eq_zero.mp h2 with h | h
  · have h9 : charge_eff = 9/10 := by linarith
    subst h9
    norm_num [simulate_single_configuration, simulate_hours, simulate_hour, max_def, min_def]
  · exfalso
    linarith

theorem claim_C2_scenario_witness :
    0 ≤ (9/10 : ℚ) ∧ (9/10 : ℚ) * (9/10) = 81/100 ∧
    simulate_single_configuration 1 1 1 (9/10) [0] [1/2] =
      [{ solar_mwh := 1/2, load_mwh := 1000, soc_mwh := 0, charge_mwh := 0,
         discharge_mwh := 450, unmet_mwh := 1099/2, overproduction_mwh := 0,
         served_mwh := 901/2 }] :=
  ⟨by norm_num, by norm_num, claim_C2_scenario (9/10) (by norm_num) (by norm_num)⟩

/-- C2, counterexample to the claim as stated: at the scenario's inputs
(with `charge_eff = sqrt 0.81 = 9/10` exactly) the code's hourly unmet
load is `549.5`, not `50`, and its solar generation is `1/2`, not `500`. -/
theorem claim_C2_counterexample :
    (simulate_single_configuration 1 1 1 (9/10) [0] [1/2]).map HourRecord.unmet_mwh ≠ [50] ∧
    (simulate_single_configuration 1 1 1 (9/10) [0] [1/2]).map HourRecord.solar_mwh ≠ [500] := by
  constructor <;>
    norm_num [simulate_single_configuration, simulate_hours, simulate_hour, max_def, min_def]

/-- C4, amended: the dispatch simulator performs no validation of the
yield series: whatever the lengths and values, it silently produces one
hourly record per `zip(datetimes, pv_values)` entry, i.e. exactly
`min (length datetimes) (length pv_values)` records — truncating to the
shorter sequence rather than failing. -/
theorem claim_C4_no_validation (pv_gw battery_gwh baseload_gw charge_eff : ℚ)
    (datetimes : List ℕ) (pv_values : List ℚ) :
    (simulate_single_configuration pv_gw battery_gwh baseload_gw charge_eff
        datetimes pv_values).length
      = min datetimes.length pv_values.length := by
  simp only [simulate_single_configuration]
  rw [simulate_hours_length, List.length_map, List.length_zip]

/-- C4, counterexample to the claim as stated: a yield series of length 1
(neither 8760 nor 8784) containing the negative value `-1` is processed
without any error: the simulator produces a normal 1-record result. -/
theorem claim_C4_counterexample :
    ((1 : ℕ) ≠ 8760 ∧ (1 : ℕ) ≠ 8784 ∧ (-1 : ℚ) < 0) ∧
    (simulate_single_configuration 1 1 1 (9/10) [0] [(-1 : ℚ)]).length = 1 := by
  refine ⟨⟨by norm_num, by norm_num, by norm_num⟩, ?_⟩
  norm_num [simulate_single_configuration, simulate_hours, simulate_hour, max_def, min_def]

/-- C6: for every configuration, yield series and hour of the dispatch
simulation, `served_mwh + unmet_mwh = load_mwh` holds exactly (the code
sets `served = baseload_mwh - unmet` on line 68 of `simulation.py`). -/
theorem claim_C6_energy_conservation (pv_gw battery_gwh baseload_gw charge_eff : ℚ)
    (datetimes : List ℕ) (pv_values : List ℚ) :
    ∀ r ∈ simulate_single_configuration pv_gw battery_gwh baseload_gw charge_eff
        datetimes pv_values,
      r.served_mwh + r.unmet_mwh = r.load_mwh := by
  intro r hr
  exact simulate_hours_served_add_unmet _ _ _ _ _ _ r hr

theorem claim_C6_energy_conservation_witness :
    scenario_record.served_mwh + scenario_record.unmet_mwh = scenario_record.load_mwh :=
  claim_C6_energy_conservation 1 1 1 (9/10) [0] [1/2] scenario_record
    (by norm_num [scenario_record, simulate_single_configuration, simulate_hours,
      simulate_hour, max_def, min_def])

/-- C7: the state of charge of a run starts at half the battery capacity
(`soc = 0.5 * capacity_mwh`, line 41 of `simulation.py`, the first
conjunct below holding definitionally) and stays within
`[0, battery_capacity_mwh]` after every hourly step. -/
theorem claim_C7_soc_bounds (pv_gw battery_gwh baseload_gw charge_eff : ℚ)
    (hb : 0 ≤ battery_gwh) (he : 0 ≤ charge_eff)
    (datetimes : List ℕ) (pv_values : List ℚ) :
    simulate_single_configuration pv_gw battery_gwh baseload_gw charge_eff datetimes pv_values
      = simulate_hours (baseload_gw * 1000) (battery_gwh * 1000) charge_eff
          (pv_gw * 1000000 / 1000) (0.5 * (battery_gwh * 1000))
          ((datetimes.zip pv_values).map Prod.snd)
    ∧ ∀ r ∈ simulate_single_configuration pv_gw battery_gwh baseload_gw charge_eff
          datetimes pv_values,
        0 ≤ r.soc_mwh ∧ r.soc_mwh ≤ battery_gwh * 1000 := by
  refine ⟨rfl, ?_⟩
  intro r hr
  have hcap : (0 : ℚ) ≤ battery_gwh * 1000 := mul_nonneg hb (by norm_num)
  have h := simulate_hours_invariant (baseload_gw * 1000) (battery_gwh * 1000) charge_eff
    (pv_gw * 1000000 / 1000) he ((datetimes.zip pv_values).map Prod.snd)
    (0.5 * (battery_gwh * 1000)) (by linarith) (by linarith) r hr
  exact ⟨h.1, h.2.1⟩

theorem claim_C7_soc_bounds_witness :
    0 ≤ (1 : ℚ) ∧ 0 ≤ (9/10 : ℚ) ∧
    (0 ≤ scenario_record.soc_mwh ∧ scenario_record.soc_mwh ≤ 1 * 1000) :=
  ⟨by norm_num, by norm_num,
    (claim_C7_soc_bounds 1 1 1 (9/10) (by norm_num) (by norm_num) [0] [1/2]).2
      scenario_record
      (by norm_num [scenario_record, simulate_single_configuration, simulate_hours,
        simulate_hour, max_def, min_def])⟩

/-- C8: with `round_trip_efficiency = 0` the code's one-way efficiency
`charge_eff = 0 ** 0.5 = 0` (encoded here as `charge_eff * charge_eff = 0`);
the explicit `else 0.0` guards on lines 60 and 64 of `simulation.py` avoid
any division by zero, and no usable charge or discharge occurs: every
deficit hour is fully unmet and every surplus hour fully curtailed.
(In this exact-arithmetic embedding no NaN or infinity can arise.) -/
theorem claim_C8_zero_efficiency (pv_gw battery_gwh baseload_gw charge_eff : ℚ)
    (hb : 0 ≤ battery_gwh) (he : charge_eff * charge_eff = 0)
    (datetimes : List ℕ) (pv_values : List ℚ) :
    ∀ r ∈ simulate_single_configuration pv_gw battery_gwh baseload_gw charge_eff
        datetimes pv_values,
      r.charge_mwh = 0 ∧ r.discharge_mwh = 0 ∧
      r.unmet_mwh = max 0 (r.load_mwh - r.solar_mwh) ∧
      r.overproduction_mwh = max 0 (r.solar_mwh - r.load_mwh) := by
  have heq : charge_eff = 0 := mul_self_eq_zero.mp he
  subst heq
  intro r hr
  have hcap : (0 : ℚ) ≤ battery_gwh * 1000 := mul_nonneg hb (by norm_num)
  exact simulate_hours_eff_zero (baseload_gw * 1000) (battery_gwh * 1000)
    (pv_gw * 1000000 / 1000) ((datetimes.zip pv_values).map Prod.snd)
    (0.5 * (battery_gwh * 1000)) (by linarith) (by linarith) r hr

theorem claim_C8_zero_efficiency_witness :
    0 ≤ (1 : ℚ) ∧ (0 : ℚ) * 0 = 0 ∧
    (eff_zero_record.charge_mwh = 0
      ∧ eff_zero_record.discharge_mwh = 0
      ∧ eff_zero_record.unmet_mwh
          = max 0 (eff_zero_record.load_mwh - eff_zero_record.solar_mwh)
      ∧ eff_zero_record.overproduction_mwh
          = max 0 (eff_zero_record.solar_mwh - eff_zero_record.load_mwh)) :=
  ⟨by norm_num, by norm_num,
    claim_C8_zero_efficiency 1 1 1 0 (by norm_num) (by norm_num) [0] [2000]
      eff_zero_record
      (by norm_num [eff_zero_record, simulate_single_configuration, simulate_hours,
        simulate_hour, max_def, min_def])⟩

/-- C9: with `battery_capacity_gwh = 0` every hour of the dispatch
simulation has zero charge and zero discharge, every surplus hour yields
`overproduction = surplus` and every deficit hour yields `unmet = deficit`. -/
theorem claim_C9_zero_battery (pv_gw baseload_gw charge_eff : ℚ) (he : 0 ≤ charge_eff)
    (datetimes : List ℕ) (pv_values : List ℚ) :
    ∀ r ∈ simulate_single_configuration pv_gw 0 baseload_gw charge_eff datetimes pv_values,
      r.charge_mwh = 0 ∧ r.discharge_mwh = 0 ∧
      r.unmet_mwh = max 0 (r.load_mwh - r.solar_mwh) ∧
      r.overproduction_mwh = max 0 (r.solar_mwh - r.load_mwh) := by
  intro r hr
  simp only [simulate_single_configuration] at hr
  rw [show ((0 : ℚ) * 1000) = 0 from by norm_num,
    show ((0.5 : ℚ) * 0) = 0 from by norm_num] at hr
  exact simulate_hours_cap_zero (baseload_gw * 1000) charge_eff
    (pv_gw * 1000000 / 1000) he ((datetimes.zip pv_values).map Prod.snd) r hr

theorem claim_C9_zero_battery_witness :
    0 ≤ (9/10 : ℚ) ∧
    (cap_zero_record.charge_mwh = 0
      ∧ cap_zero_record.discharge_mwh = 0
      ∧ cap_zero_record.unmet_mwh
          = max 0 (cap_zero_record.load_mwh - cap_zero_record.solar_mwh)
      ∧ cap_zero_record.overproduction_mwh
          = max 0 (cap_zero_record.solar_mwh - cap_zero_record.load_mwh)) :=
  ⟨by norm_num,
    claim_C9_zero_battery 1 1 (9/10) (by norm_num) [0] [2000] cap_zero_record
      (by norm_num [cap_zero_record, simulate_single_configuration, simulate_hours,
        simulate_hour, max_def, min_def])⟩

/-- C10: in every hour of every dispatch run (with nonnegative battery
capacity and one-way efficiency, as produced by the code), the four flows
`charge`, `discharge`, `unmet`, `overproduction` are nonnegative, and
charge/discharge are never both positive, nor are unmet/overproduction. -/
theorem claim_C10_flow_signs (pv_gw battery_gwh baseload_gw charge_eff : ℚ)
    (hb : 0 ≤ battery_gwh) (he : 0 ≤ charge_eff)
    (datetimes : List ℕ) (pv_values : List ℚ) :
    ∀ r ∈ simulate_single_configuration pv_gw battery_gwh baseload_gw charge_eff
        datetimes pv_values,
      0 ≤ r.charge_mwh ∧ 0 ≤ r.discharge_mwh ∧ 0 ≤ r.unmet_mwh ∧
      0 ≤ r.overproduction_mwh ∧
      ¬(0 < r.charge_mwh ∧ 0 < r.discharge_mwh) ∧
      ¬(0 < r.unmet_mwh ∧ 0 < r.overproduction_mwh) := by
  intro r hr
  have hcap : (0 : ℚ) ≤ battery_gwh * 1000 := mul_nonneg hb (by norm_num)
  have h := simulate_hours_invariant (baseload_gw * 1000) (battery_gwh * 1000) charge_eff
    (pv_gw * 1000000 / 1000) he ((datetimes.zip pv_values).map Prod.snd)
    (0.5 * (battery_gwh * 1000)) (by linarith) (by linarith) r hr
  refine ⟨h.2.2.1, h.2.2.2.1, h.2.2.2.2.1, h.2.2.2.2.2.1, ?_, ?_⟩
  · rintro ⟨ha, hb'⟩
    rcases h.2.2.2.2.2.2.1 with h' | h'
    · rw [h'] at ha
      exact lt_irrefl 0 ha
    · rw [h'] at hb'
      exact lt_irrefl 0 hb'
  · rintro ⟨ha, hb'⟩
    rcases h.2.2.2.2.2.2.2 with h' | h'
    · rw [h'] at ha
      exact lt_irrefl 0 ha
    · rw [h'] at hb'
      exact lt_irrefl 0 hb'

theorem claim_C10_flow_signs_witness :
    0 ≤ (1 : ℚ) ∧ 0 ≤ (9/10 : ℚ) ∧
    (0 ≤ scenario_record.charge_mwh
      ∧ 0 ≤ scenario_record.discharge_mwh
      ∧ 0 ≤ scenario_record.unmet_mwh
      ∧ 0 ≤ scenario_record.overproduction_mwh
      ∧ ¬(0 < scenario_record.charge_mwh ∧ 0 < scenario_record.discharge_mwh)
      ∧ ¬(0 < scenario_record.unmet_mwh ∧ 0 < scenario_record.overproduction_mwh)) :=
  ⟨by norm_num, by norm_num,
    claim_C10_flow_signs 1 1 1 (9/10) (by norm_num) (by norm_num) [0] [1/2]
      scenario_record
      (by norm_num [scenario_record, simulate_single_configuration, simulate_hours,
        simulate_hour, max_def, min_def])⟩

/-!
Part 2: embedding of `src/baseload/site_selection.py` over the reals.
The trigonometric functions of `haversine_distance` force a model over
`ℝ`, so the selection definitions are noncomputable and use classical
decidability for real-number comparisons.
-/

open Classical

/-- The `Site` dataclass of `site_selection.py` (lines 11-20). -/
structure Site where
  name : String
  latitude : ℝ
  longitude : ℝ

noncomputable instance : DecidableEq Site := Classical.decEq Site

/-- Model of Python's `math.radians`: degrees to radians. -/
noncomputable def radians (x : ℝ) : ℝ := x * Real.pi / 180

/-- Model of Python's `math.atan2` on real arguments (the branch
structure of the C library function; the signed-zero distinctions of
floating point do not exist on `ℝ`). -/
noncomputable def atan2 (y x : ℝ) : ℝ :=
  if 0 < x then Real.arctan (y / x)
  else if x < 0 ∧ 0 ≤ y then Real.arctan (y / x) + Real.pi
  else if x < 0 ∧ y < 0 then Real.arctan (y / x) - Real.pi
  else if x = 0 ∧ 0 < y then Real.pi / 2
  else if x = 0 ∧ y < 0 then -(Real.pi / 2)
  else 0

/-- `haversine_distance` (`site_selection.py` lines 82-91): great-circle
distance in kilometres on a sphere of radius 6371 km.  `math.sqrt` is
modelled by `Real.sqrt`; the intermediate `a` always lies in `[0, 1]`
for real inputs, so the two functions agree on every reachable input. -/
noncomputable def haversine_distance (lat1 lon1 lat2 lon2 : ℝ) : ℝ :=
  let r : ℝ := 6371
  let phi1 := radians lat1
  let phi2 := radians lat2
  let dphi := radians (lat2 - lat1)
  let dlambda := radians (lon2 - lon1)
  let a := Real.sin (dphi / 2) ^ 2 + Real.cos phi1 * Real.cos phi2 * Real.sin (dlambda / 2) ^ 2
  let c := 2 * atan2 (Real.sqrt a) (Real.sqrt (1 - a))
  r * c

/-- The `min(...)` generator expression of `select_sites` (lines
115-118): minimum haversine distance from `candidate` to the non-empty
`selected` list (Python's `min` over a non-empty sequence; the empty
case is unreachable in the code and mapped to 0). -/
noncomputable def min_distance_to_selected (selected : List Site) (candidate : Site) : ℝ :=
  match selected with
  | [] => 0
  | s :: rest =>
    (rest.map (fun t => haversine_distance candidate.latitude candidate.longitude
        t.latitude t.longitude)).foldl min
      (haversine_distance candidate.latitude candidate.longitude s.latitude s.longitude)

/-- The inner scan of `select_sites` (lines 112-121): fold over
`remaining`, keeping the first candidate whose minimum distance to the
selected set strictly exceeds the best so far, starting from
`(None, -1.0)`. -/
noncomputable def best_candidate (selected remaining : List Site) : Option Site × ℝ :=
  remaining.foldl
    (fun acc candidate =>
      let d := min_distance_to_selected selected candidate
      if d > acc.2 then (some candidate, d) else acc)
    (none, -1)

/-- Helper: the scan only ever stores candidates drawn from the list it
scans (or keeps what the accumulator already held). -/
theorem scan_acc_mem (selected : List Site) :
    ∀ (l : List Site) (acc : Option Site × ℝ) (c : Site),
      (l.foldl
        (fun acc candidate =>
          let d := min_distance_to_selected selected candidate
          if d > acc.2 then (some candidate, d) else acc)
        acc).1 = some c →
      acc.1 = some c ∨ c ∈ l := by
  intro l
  induction l with
  | nil => exact fun acc c h => Or.inl h
  | cons x t ih =>
    intro acc c h
    rw [List.foldl_cons] at h
    rcases ih _ c h with h' | h'
    · dsimp only at h'
      by_cases hd : min_distance_to_selected selected x > acc.2
      · rw [if_pos hd] at h'
        right
        rw [← Option.some.inj h']
        exact List.mem_cons_self x t
      · rw [if_neg hd] at h'
        exact Or.inl h'
    · exact Or.inr (List.mem_cons_of_mem x h')

/-- Helper: a site returned by `best_candidate` is a member of the
remaining pool (so Python's `remaining.remove(max_site)` succeeds). -/
theorem best_candidate_mem (selected remaining : List Site) (c : Site)
    (h : (best_candidate selected remaining).1 = some c) : c ∈ remaining := by
  simp only [best_candidate] at h
  rcases scan_acc_mem selected remaining (none, -1) c h with h' | h'
  · exact absurd h' (by simp)
  · exact h'

/-- The `while len(selected) < n` loop of `select_sites` (lines
111-125).  The membership guard on the recursive call models Python's
`remaining.remove(max_site)` (which presupposes membership) and makes
termination evident; by `best_candidate_mem` the guard is always taken,
so the `else` arm is unreachable.  The `none` arm is the `break` of
line 123. -/
noncomputable def select_loop (n : ℤ) (selected remaining : List Site) : List Site :=
  if (selected.length : ℤ) < n then
    match (best_candidate selected remaining).1 with
    | none => selected
    | some max_site =>
      if h : max_site ∈ remaining then
        select_loop n (selected ++ [max_site]) (remaining.erase max_site)
      else selected
  else selected
termination_by remaining.length
decreasing_by
  rw [List.length_erase_of_mem h]
  exact Nat.sub_lt (List.length_pos_of_mem h) (by norm_num)

/-- Model of line 128, `s.replace(" ", "_").replace(",", "")`: both
patterns are single characters, so the two replaces are a character map
(space to underscore) followed by a filter dropping commas. -/
def safe_name (s : String) : String :=
  String.mk ((s.data.map (fun ch => if ch = ' ' then '_' else ch)).filter (fun ch => ch ≠ ','))

/-- The renaming pass of `select_sites` (lines 126-129): the selected
sites receive positional names `site_<rank>_<sanitized original name>`,
1-indexed in selection order, keeping their coordinates. -/
def normalize_selected (selected : List Site) : List Site :=
  selected.enum.map (fun p =>
    { name := "site_" ++ toString (p.1 + 1) ++ "_" ++ safe_name p.2.name,
      latitude := p.2.latitude, longitude := p.2.longitude })

/-- `select_sites` (`site_selection.py` lines 103-130).  The
`ValueError` of line 108 becomes the first `Except.error`; when the
pool is empty and `n ≤ 0` survives the length check, Python's `pool[0]`
raises `IndexError`, modelled by the second `Except.error`. -/
noncomputable def select_sites (sites : List Site) (n : ℤ) : Except String (List Site) :=
  if (sites.length : ℤ) < n then
    Except.error "Candidate pool smaller than requested number of sites"
  else
    match sites with
    | [] => Except.error "IndexError: list index out of range"
    | p :: rest => Except.ok (normalize_selected (select_loop n [p] rest))

/-- Helper: `atan2 y x` is nonnegative whenever `y` is (the first
argument of `atan2` in `haversine_distance` is a square root). -/
theorem atan2_nonneg (y x : ℝ) (hy : 0 ≤ y) : 0 ≤ atan2 y x := by
  have hpi := Real.pi_pos
  unfold atan2
  split_ifs with h1 h2 h3 h4 h5
  · have h0 : Real.arctan 0 ≤ Real.arctan (y / x) :=
      Real.arctan_strictMono.monotone (div_nonneg hy h1.le)
    rw [Real.arctan_zero] at h0
    exact h0
  · have := Real.neg_pi_div_two_lt_arctan (y / x)
    linarith
  · linarith [h3.2]
  · linarith
  · linarith [h5.2]
  · exact le_refl 0

/-- Helper: the haversine distance is nonnegative for any real inputs,
hence always exceeds the scan's initial `max_distance = -1.0`. -/
theorem haversine_distance_nonneg (lat1 lon1 lat2 lon2 : ℝ) :
    0 ≤ haversine_distance lat1 lon1 lat2 lon2 := by
  simp only [haversine_distance]
  exact mul_nonneg (by norm_num)
    (mul_nonneg (by norm_num) (atan2_nonneg _ _ (Real.sqrt_nonneg _)))

/-- Helper: a left fold of `min` over nonnegative values from a
nonnegative seed stays nonnegative. -/
theorem foldl_min_nonneg :
    ∀ (l : List ℝ) (a : ℝ), 0 ≤ a → (∀ x ∈ l, 0 ≤ x) → 0 ≤ l.foldl min a
  | [], _, ha, _ => ha
  | x :: t, a, ha, hl =>
    foldl_min_nonneg t (min a x) (le_min ha (hl x (List.mem_cons_self x t)))
      (fun y hy => hl y (List.mem_cons_of_mem x hy))

/-- Helper: the minimum distance from a candidate to the selected set is
nonnegative. -/
theorem min_distance_to_selected_nonneg (selected : List Site) (c : Site) :
    0 ≤ min_distance_to_selected selected c := by
  rcases selected with _ | ⟨s, rest⟩
  · simp [min_distance_to_selected]
  · simp only [min_distance_to_selected]
    refine foldl_min_nonneg _ _ (haversine_distance_nonneg _ _ _ _) ?_
    intro x hx
    rcases List.mem_map.mp hx with ⟨t, _, rfl⟩
    exact haversine_distance_nonneg _ _ _ _

/-- Helper: first-strict-improvement scan over `t` starting from the
current best `m`; this is exactly how the `max_site`/`max_distance`
accumulator of `select_sites` evolves once it holds a candidate. -/
noncomputable def scan_run (f : Site → ℝ) : Site → List Site → Site
  | m, [] => m
  | m, c :: t => if f c > f m then scan_run f c t else scan_run f m t

/-- Helper: the scan accumulator dynamics of `best_candidate` compute
`scan_run`. -/
theorem scan_foldl_eq (selected : List Site) (t : List Site) :
    ∀ m : Site,
      (t.foldl
        (fun acc candidate =>
          let d := min_distance_to_selected selected candidate
          if d > acc.2 then (some candidate, d) else acc)
        (some m, min_distance_to_selected selected m)).1
      = some (scan_run (min_distance_to_selected selected) m t) := by
  induction t with
  | nil => intro m; rfl
  | cons c t ih =>
    intro m
    rw [List.foldl_cons]
    simp only [scan_run]
    dsimp only
    by_cases hcm : min_distance_to_selected selected c > min_distance_to_selected selected m
    · rw [if_pos hcm, if_pos hcm]
      exact ih c
    · rw [if_neg hcm, if_neg hcm]
      exact ih m

/-- Helper: on a non-empty remaining pool the scan of `best_candidate`
returns the `scan_run` of the tail seeded with the head (the head always
improves on the initial `max_distance = -1.0` because distances are
nonnegative). -/
theorem best_candidate_cons (selected : List Site) (c : Site) (t : List Site) :
    (best_candidate selected (c :: t)).1
      = some (scan_run (min_distance_to_selected selected) c t) := by
  have hpos : min_distance_to_selected selected c > (-1 : ℝ) :=
    lt_of_lt_of_le (by norm_num) (min_distance_to_selected_nonneg selected c)
  simp only [best_candidate, List.foldl_cons]
  dsimp only
  rw [if_pos hpos]
  exact scan_foldl_eq selected t c

/-- Helper: `scan_run f m t` is the first maximum of `f` over `m :: t`:
either it is `m` itself and `m` dominates all of `t`, or it sits inside
`t` with everything before it (and `m`) strictly below it and everything
after it at most it. -/
theorem scan_run_spec (f : Site → ℝ) :
    ∀ (t : List Site) (m : Site),
      (scan_run f m t = m ∧ ∀ d ∈ t, f d ≤ f m) ∨
      (∃ t1 t2, t = t1 ++ scan_run f m t :: t2 ∧ f m < f (scan_run f m t) ∧
        (∀ d ∈ t1, f d < f (scan_run f m t)) ∧ (∀ d ∈ t2, f d ≤ f (scan_run f m t)))
  | [], m => Or.inl ⟨rfl, by simp⟩
  | c :: t, m => by
    by_cases hcm : f c > f m
    · have hrun : scan_run f m (c :: t) = scan_run f c t := by
        simp only [scan_run]
        rw [if_pos hcm]
      rcases scan_run_spec f t c with ⟨heq, hall⟩ | ⟨t1, t2, ht, hlt, hpre, hpost⟩
      · right
        refine ⟨[], t, ?_, ?_, by simp, ?_⟩
        · rw [hrun, heq]
          simp
        · rw [hrun, heq]
          exact hcm
        · intro d hd
          rw [hrun, heq]
          exact hall d hd
      · right
        refine ⟨c :: t1, t2, ?_, ?_, ?_, ?_⟩
        · rw [hrun, List.cons_append]
          exact congrArg (List.cons c) ht
        · rw [hrun]
          linarith
        · intro d hd
          rw [hrun]
          rcases List.mem_cons.mp hd with rfl | hd'
          · linarith
          · exact hpre d hd'
        · intro d hd
          rw [hrun]
          exact hpost d hd
    · have hrun : scan_run f m (c :: t) = scan_run f m t := by
        simp only [scan_run]
        rw [if_neg hcm]
      push_neg at hcm
      rcases scan_run_spec f t m with ⟨heq, hall⟩ | ⟨t1, t2, ht, hlt, hpre, hpost⟩
      · left
        refine ⟨by rw [hrun, heq], ?_⟩
        intro d hd
        rcases List.mem_cons.mp hd with rfl | hd'
        · exact hcm
        · exact hall d hd'
      · right
        refine ⟨c :: t1, t2, ?_, ?_, ?_, ?_⟩
        · rw [hrun, List.cons_append]
          exact congrArg (List.cons c) ht
        · rw [hrun]
          exact hlt
        · intro d hd
          rw [hrun]
          rcases List.mem_cons.mp hd with rfl | hd'
          · linarith
          · exact hpre d hd'
        · intro d hd
          rw [hrun]
          exact hpost d hd

/-- Helper: for two points on the equator separated by `t` degrees of
longitude (`0 ≤ t < 180`), the haversine formula evaluates exactly to
arc length `6371 * (t * pi / 180)`; this closed form decides the
distance comparisons of the 4-collinear-points test. -/
theorem haversine_zero_lat (t : ℝ) (h0 : 0 ≤ t) (h1 : t < 180) :
    haversine_distance 0 t 0 0 = 6371 * (t * Real.pi / 180) := by
  have hpi := Real.pi_pos
  have hu1 : t * Real.pi / 360 < Real.pi / 2 := by nlinarith
  have hu0 : 0 ≤ t * Real.pi / 360 := by positivity
  have hsin : 0 ≤ Real.sin (t * Real.pi / 360) :=
    Real.sin_nonneg_of_nonneg_of_le_pi hu0 (by nlinarith)
  have hcos : 0 < Real.cos (t * Real.pi / 360) :=
    Real.cos_pos_of_mem_Ioo ⟨by nlinarith, hu1⟩
  simp only [haversine_distance, radians]
  rw [show ((0 : ℝ) - 0) * Real.pi / 180 / 2 = 0 by ring,
    show ((0 : ℝ) - t) * Real.pi / 180 / 2 = -(t * Real.pi / 360) by ring,
    show ((0 : ℝ) * Real.pi / 180) = 0 by ring,
    Real.sin_zero, Real.cos_zero, Real.sin_neg]
  rw [show (0 : ℝ) ^ 2 + 1 * 1 * (-Real.sin (t * Real.pi / 360)) ^ 2
      = Real.sin (t * Real.pi / 360) ^ 2 by ring]
  rw [Real.sqrt_sq hsin]
  rw [show (1 : ℝ) - Real.sin (t * Real.pi / 360) ^ 2
      = Real.cos (t * Real.pi / 360) ^ 2 from by
    rw [Real.cos_sq']]
  rw [Real.sqrt_sq hcos.le]
  unfold atan2
  rw [if_pos hcos, ← Real.tan_eq_sin_div_cos,
    Real.arctan_tan (by nlinarith) hu1]
  ring

/-- Helper: renaming preserves the number of selected sites. -/
theorem normalize_selected_length (l : List Site) :
    (normalize_selected l).length = l.length := by
  simp [normalize_selected]

/-- Helper: `best_candidate` on an empty remaining pool keeps the
initial `(None, -1.0)` accumulator. -/
theorem best_candidate_nil (selected : List Site) :
    (best_candidate selected []).1 = none := rfl

/-- Helper: as long as candidates remain and the target is not yet
reached, each loop iteration adds exactly one site; starting from a
selected list of size at most `n` with enough candidates to reach `n`,
the loop returns exactly `n` sites. -/
theorem select_loop_length (n : ℤ) :
    ∀ (k : ℕ) (remaining selected : List Site), remaining.length = k →
      (selected.length : ℤ) ≤ n → n ≤ selected.length + remaining.length →
      ((select_loop n selected remaining).length : ℤ) = n := by
  intro k
  induction k with
  | zero =>
    intro remaining selected hk hle hge
    rw [select_loop.eq_def]
    rw [if_neg (by omega)]
    omega
  | succ k ih =>
    intro remaining selected hk hle hge
    rw [select_loop.eq_def]
    by_cases hlt : (selected.length : ℤ) < n
    · rw [if_pos hlt]
      rcases remaining with _ | ⟨c, t⟩
      · simp at hk
      · rw [best_candidate_cons]
        dsimp only
        have hmem : scan_run (min_distance_to_selected selected) c t ∈ c :: t := by
          apply best_candidate_mem selected (c :: t)
          rw [best_candidate_cons]
        rw [dif_pos hmem]
        apply ih
        · rw [List.length_erase_of_mem hmem]
          simp only [List.length_cons] at hk ⊢
          omega
        · simp only [List.length_append, List.length_singleton]
          push_cast
          omega
        · rw [List.length_erase_of_mem hmem]
          simp only [List.length_append, List.length_singleton, List.length_cons] at hge ⊢
          push_cast at hge ⊢
          omega
    · rw [if_neg hlt]
      omega

/-- C3, amended: for every non-empty candidate pool and every requested
count `n ≥ 1`, `select_sites` fails with the InsufficientCandidates
error ("Candidate pool smaller than requested number of sites") exactly
when `n` exceeds the pool size, producing no partial result, and
otherwise returns exactly `n` sites.  (For `n ≤ 0` the code instead
returns the first candidate alone — a list of length 1 — because the
loop body never runs but `selected` is seeded with `pool[0]`; this is
the single point where the original claim fails.) -/
theorem claim_C3_select_count (p : Site) (rest : List Site) (n : ℤ) (hn : 1 ≤ n) :
    ((((p :: rest).length : ℤ) < n →
      select_sites (p :: rest) n
        = Except.error "Candidate pool smaller than requested number of sites") ∧
    (n ≤ ((p :: rest).length : ℤ) →
      ∃ l, select_sites (p :: rest) n = Except.ok l ∧ (l.length : ℤ) = n)) := by
  constructor
  · intro hlt
    simp only [select_sites]
    rw [if_pos hlt]
  · intro hle
    simp only [select_sites]
    rw [if_neg (not_lt.mpr hle)]
    refine ⟨normalize_selected (select_loop n [p] rest), rfl, ?_⟩
    rw [normalize_selected_length]
    apply select_loop_length n rest.length rest [p] rfl
    · simp only [List.length_singleton]
      omega
    · simp only [List.length_singleton, List.length_cons] at hle ⊢
      push_cast at hle ⊢
      omega

theorem claim_C3_select_count_witness :
    1 ≤ (2 : ℤ) ∧ (2 : ℤ) ≤ (([⟨"A", 0, 0⟩, ⟨"B", 0, 1⟩] : List Site).length : ℤ) ∧
    ∃ l, select_sites [(⟨"A", 0, 0⟩ : Site), ⟨"B", 0, 1⟩] 2 = Except.ok l ∧
      (l.length : ℤ) = 2 :=
  ⟨by norm_num, by simp,
    (claim_C3_select_count ⟨"A", 0, 0⟩ [⟨"B", 0, 1⟩] 2 (by norm_num)).2 (by simp)⟩

/-- C3, counterexample to the claim as stated: with a pool of one site
and requested count 0 (which does not exceed the pool size, so the
claim demands a sequence of exactly 0 sites), the code succeeds but
returns 1 site — the seeded first element of the pool. -/
theorem claim_C3_counterexample :
    select_sites [(⟨"A", 0, 0⟩ : Site)] 0 = Except.ok [⟨"site_1_A", 0, 0⟩] ∧
    ([(⟨"site_1_A", 0, 0⟩ : Site)].length : ℤ) ≠ 0 := by
  constructor
  · simp only [select_sites]
    rw [if_neg (by simp)]
    rw [select_loop.eq_def]
    rw [if_neg (by simp)]
    rfl
  · simp

/-- Helper: against a single selected site the minimum distance is just
the haversine distance to it. -/
theorem min_dist_singleton (a c : Site) :
    min_distance_to_selected [a] c
      = haversine_distance c.latitude c.longitude a.latitude a.longitude := rfl

/-- Helper: distance of the collinear test point at longitude 1 from
the start point. -/
theorem concrete_distB :
    min_distance_to_selected [(⟨"A", 0, 0⟩ : Site)] ⟨"B", 0, 1⟩
      = 6371 * (1 * Real.pi / 180) := by
  rw [min_dist_singleton]
  exact haversine_zero_lat 1 (by norm_num) (by norm_num)

/-- Helper: distance of the collinear test point at longitude 2 from
the start point. -/
theorem concrete_distC :
    min_distance_to_selected [(⟨"A", 0, 0⟩ : Site)] ⟨"C", 0, 2⟩
      = 6371 * (2 * Real.pi / 180) := by
  rw [min_dist_singleton]
  exact haversine_zero_lat 2 (by norm_num) (by norm_num)

/-- Helper: distance of the collinear test point at longitude 3 from
the start point. -/
theorem concrete_distD :
    min_distance_to_selected [(⟨"A", 0, 0⟩ : Site)] ⟨"D", 0, 3⟩
      = 6371 * (3 * Real.pi / 180) := by
  rw [min_dist_singleton]
  exact haversine_zero_lat 3 (by norm_num) (by norm_num)

/-- Helper: the scan over the three collinear candidates keeps the
farthest one (longitude 3). -/
theorem concrete_scan :
    scan_run (min_distance_to_selected [(⟨"A", 0, 0⟩ : Site)]) ⟨"B", 0, 1⟩
      [⟨"C", 0, 2⟩, ⟨"D", 0, 3⟩] = ⟨"D", 0, 3⟩ := by
  have hpi := Real.pi_pos
  simp only [scan_run]
  rw [concrete_distB, concrete_distC, concrete_distD]
  rw [if_pos (by nlinarith), if_pos (by nlinarith)]

/-- Helper: the first scan of the 4-point instance returns the site at
longitude 3. -/
theorem concrete_best :
    (best_candidate [(⟨"A", 0, 0⟩ : Site)] [⟨"B", 0, 1⟩, ⟨"C", 0, 2⟩, ⟨"D", 0, 3⟩]).1
      = some ⟨"D", 0, 3⟩ := by
  rw [best_candidate_cons, concrete_scan]

theorem siteB_ne_siteD : (⟨"B", 0, 1⟩ : Site) ≠ ⟨"D", 0, 3⟩ := fun h =>
  absurd (congrArg Site.name h) (by decide)

theorem siteC_ne_siteD : (⟨"C", 0, 2⟩ : Site) ≠ ⟨"D", 0, 3⟩ := fun h =>
  absurd (congrArg Site.name h) (by decide)

/-- Helper: `remaining.remove(max_site)` on the concrete instance. -/
theorem concrete_erase :
    ([⟨"B", 0, 1⟩, ⟨"C", 0, 2⟩, ⟨"D", 0, 3⟩] : List Site).erase ⟨"D", 0, 3⟩
      = [⟨"B", 0, 1⟩, ⟨"C", 0, 2⟩] := by
  simp only [List.erase_cons, beq_iff_eq]
  simp

/-- Helper: the greedy loop on the 4-point instance selects the start
point and the site at longitude 3. -/
theorem concrete_loop :
    select_loop 2 [(⟨"A", 0, 0⟩ : Site)] [⟨"B", 0, 1⟩, ⟨"C", 0, 2⟩, ⟨"D", 0, 3⟩]
      = [⟨"A", 0, 0⟩, ⟨"D", 0, 3⟩] := by
  rw [select_loop.eq_def]
  rw [if_pos (by norm_num [List.length_singleton])]
  rw [concrete_best]
  dsimp only
  rw [dif_pos (by simp : (⟨"D", 0, 3⟩ : Site) ∈ [⟨"B", 0, 1⟩, ⟨"C", 0, 2⟩, ⟨"D", 0, 3⟩])]
  rw [concrete_erase]
  simp only [List.singleton_append]
  rw [select_loop.eq_def]
  rw [if_neg (by norm_num [List.length_cons])]

/-- Helper: the full selection on the 4-point instance, with the
positional renaming applied. -/
theorem concrete_select :
    select_sites [(⟨"A", 0, 0⟩ : Site), ⟨"B", 0, 1⟩, ⟨"C", 0, 2⟩, ⟨"D", 0, 3⟩] 2
      = Except.ok [⟨"site_1_A", 0, 0⟩, ⟨"site_2_D", 0, 3⟩] := by
  simp only [select_sites]
  rw [if_neg (by norm_num [List.length_cons])]
  rw [concrete_loop]
  rfl

/-- C5: each greedy step adds the not-yet-selected candidate whose
minimum great-circle distance to the already-selected set is largest,
breaking ties by pool order — formally, `best_candidate` returns a
member `c` of the remaining pool that dominates every remaining
candidate, with every candidate before `c` strictly below it (first
maximizer wins); and on 4 collinear equatorial points at longitudes
0,1,2,3, requesting 2 sites starting from position 0, the selector
picks the point at longitude 3. -/
theorem claim_C5_farthest_point :
    (∀ (selected remaining : List Site), remaining ≠ [] →
      ∃ c l1 l2, (best_candidate selected remaining).1 = some c ∧
        remaining = l1 ++ c :: l2 ∧
        (∀ d ∈ l1, min_distance_to_selected selected d
          < min_distance_to_selected selected c) ∧
        (∀ d ∈ remaining, min_distance_to_selected selected d
          ≤ min_distance_to_selected selected c)) ∧
    select_sites [(⟨"A", 0, 0⟩ : Site), ⟨"B", 0, 1⟩, ⟨"C", 0, 2⟩, ⟨"D", 0, 3⟩] 2
      = Except.ok [⟨"site_1_A", 0, 0⟩, ⟨"site_2_D", 0, 3⟩] := by
  constructor
  · intro selected remaining hne
    rcases remaining with _ | ⟨c, t⟩
    · exact absurd rfl hne
    · rcases scan_run_spec (min_distance_to_selected selected) t c with
        ⟨heq, hall⟩ | ⟨t1, t2, ht, hlt, hpre, hpost⟩
      · refine ⟨c, [], t, ?_, by simp, by simp, ?_⟩
        · rw [best_candidate_cons, heq]
        · intro d hd
          rcases List.mem_cons.mp hd with rfl | hd'
          · exact le_refl _
          · exact hall d hd'
      · refine ⟨scan_run (min_distance_to_selected selected) c t, c :: t1, t2,
          ?_, ?_, ?_, ?_⟩
        · rw [best_candidate_cons]
        · rw [List.cons_append]
          exact congrArg (List.cons c) ht
        · intro d hd
          rcases List.mem_cons.mp hd with rfl | hd'
          · exact hlt
          · exact hpre d hd'
        · intro d hd
          rcases List.mem_cons.mp hd with rfl | hd'
          · exact hlt.le
          · rw [ht] at hd'
            rcases List.mem_append.mp hd' with hd1 | hd2
            · exact (hpre d hd1).le
            · rcases List.mem_cons.mp hd2 with rfl | hd3
              · exact le_refl _
              · exact hpost d hd3
  · exact concrete_select

theorem claim_C5_farthest_point_witness :
    ∃ c l1 l2, (best_candidate [(⟨"A", 0, 0⟩ : Site)] [⟨"B", 0, 1⟩]).1 = some c ∧
      ([(⟨"B", 0, 1⟩ : Site)] : List Site) = l1 ++ c :: l2 ∧
      (∀ d ∈ l1, min_distance_to_selected [(⟨"A", 0, 0⟩ : Site)] d
        < min_distance_to_selected [(⟨"A", 0, 0⟩ : Site)] c) ∧
      (∀ d ∈ ([(⟨"B", 0, 1⟩ : Site)] : List Site),
        min_distance_to_selected [(⟨"A", 0, 0⟩ : Site)] d
          ≤ min_distance_to_selected [(⟨"A", 0, 0⟩ : Site)] c) :=
  claim_C5_farthest_point.1 [⟨"A", 0, 0⟩] [⟨"B", 0, 1⟩] (by simp)
